import Mathlib

/-!
Verification of the capability-token and digest-scheduler core of the
newsletter platform.

Strings from the TypeScript source are modelled as `List Char`; byte
buffers as `List Nat` with every entry `< 256`.  The two external
primitives used by `src/lib/tokens.ts` — HMAC-SHA-256 (`crypto`) and
JSON serialization (`JSON.stringify` / `JSON.parse`) — are passed in as
function parameters (`hmac`, `stringify`, `parse`), since their
implementations live outside the repository.  Everything else
(base64url, token splitting, the verification loop, the nonce ledger
mapping, the route handlers and the digest run) is translated directly
from the source.
-/

abbrev Str := List Char

/-! ## base64 / base64url (Buffer.toString("base64") and the regex
replacements performed by `b64urlEncode` / `b64urlDecode` in
`src/lib/tokens.ts` lines 4-18) -/

def stdAlphabet : Str :=
  "ABCDEFGHIJKLMNOPQRSTUVWXYZabcdefghijklmnopqrstuvwxyz0123456789+/".data

def sixToChar (v : Nat) : Char := stdAlphabet.getD v 'A'

def charToSix (c : Char) : Option Nat := stdAlphabet.findIdx? (fun x => x == c)

/-- Standard base64 encoding of a byte list, three bytes at a time, with
trailing padding characters, as produced by Node's
`Buffer.toString("base64")`. -/
def base64EncodeChunks : List Nat → Str
  | b1 :: b2 :: b3 :: rest =>
      sixToChar (b1 / 4) ::
      sixToChar (b1 % 4 * 16 + b2 / 16) ::
      sixToChar (b2 % 16 * 4 + b3 / 64) ::
      sixToChar (b3 % 64) ::
      base64EncodeChunks rest
  | [b1, b2] =>
      [sixToChar (b1 / 4), sixToChar (b1 % 4 * 16 + b2 / 16), sixToChar (b2 % 16 * 4), '=']
  | [b1] => [sixToChar (b1 / 4), sixToChar (b1 % 4 * 16), '=', '=']
  | [] => []

/-- Regrouping of 6-bit values into bytes, the core of Node's base64
decoding. -/
def base64DecodeSix : List Nat → List Nat
  | a :: b :: c :: d :: rest =>
      (a * 4 + b / 16) :: (b % 16 * 16 + c / 4) :: (c % 4 * 64 + d) :: base64DecodeSix rest
  | [a, b, c] => [a * 4 + b / 16, b % 16 * 16 + c / 4]
  | [a, b] => [a * 4 + b / 16]
  | _ => []

/-- Node's lenient `Buffer.from(s, "base64")`: stop at the first padding
character, drop characters outside the alphabet, regroup the remaining
6-bit values into bytes. -/
def nodeBase64Decode (s : Str) : List Nat :=
  base64DecodeSix ((s.takeWhile (fun c => c != '=')).filterMap charToSix)

def urlSwap (c : Char) : Char := if c = '+' then '-' else if c = '/' then '_' else c

def urlUnswap (c : Char) : Char := if c = '-' then '+' else if c = '_' then '/' else c

/-- `b64urlEncode` (tokens.ts lines 4-11): base64-encode, strip `=`,
replace `+` with `-` and `/` with `_`. -/
def b64urlEncode (bytes : List Nat) : Str :=
  ((base64EncodeChunks bytes).filter (fun c => c != '=')).map urlSwap

/-- `b64urlDecode` (tokens.ts lines 13-18): reverse the character
replacements, restore `=` padding to a multiple of four, then decode as
base64. -/
def b64urlDecode (input : Str) : List Nat :=
  let norm := input.map urlUnswap
  let pad := 4 - norm.length % 4
  let padded := if pad < 4 then norm ++ List.replicate pad '=' else norm
  nodeBase64Decode padded

/-! ## Token payloads and the codec (tokens.ts lines 20-89) -/

/-- `TokenPayload` (tokens.ts lines 20-25): `exp` when present as a
number, the optional nonce `n`, the optional `user_id`, and free-form
extra fields. -/
structure TokenPayload where
  exp : Option Int
  n : Option Str
  user_id : Option Str
  extra : List (Str × Str)
deriving DecidableEq

inductive VerifyResult
  | ok (payload : TokenPayload)
  | err (msg : Str)
deriving DecidableEq

/-- The `for (const secret of secrets)` loop of `verifyTokenWithSecrets`
(tokens.ts lines 47-65): skip empty secrets, recompute the HMAC over the
payload half, compare it (length check plus `timingSafeEqual`) with the
decoded signature half, and on a match parse the payload and apply the
expiry check; a parse failure falls through to the next secret. -/
def verifyLoop (parse : List Nat → Option TokenPayload) (hmac : Str → Str → List Nat)
    (now : Int) (payloadB64 sigB64 : Str) : List Str → VerifyResult
  | [] => .err "Invalid token or signature".data
  | secret :: rest =>
    if secret = [] then verifyLoop parse hmac now payloadB64 sigB64 rest
    else
      let expected := hmac secret payloadB64
      let got := b64urlDecode sigB64
      if expected.length = got.length ∧ expected = got then
        match parse (b64urlDecode payloadB64) with
        | none => verifyLoop parse hmac now payloadB64 sigB64 rest
        | some p =>
          match p.exp with
          | some e => if now > e then .err "Token expired".data else .ok p
          | none => .ok p
      else verifyLoop parse hmac now payloadB64 sigB64 rest

/-- `verifyTokenWithSecrets` (tokens.ts lines 41-67): split the token on
every `.`; any split other than exactly two parts is a format error;
otherwise run the secret loop. -/
def verifyTokenWithSecrets (parse : List Nat → Option TokenPayload)
    (hmac : Str → Str → List Nat) (now : Int) (token : Str) (secrets : List Str) :
    VerifyResult :=
  match token.splitOn '.' with
  | [payloadB64, sigB64] => verifyLoop parse hmac now payloadB64 sigB64 secrets
  | _ => .err "Bad token format".data

/-- `signPayload` (tokens.ts lines 75-82): base64url the serialized
payload, HMAC the base64url text, join with a single dot. -/
def signPayload (stringify : TokenPayload → List Nat) (hmac : Str → Str → List Nat)
    (payload : TokenPayload) (secret : Str) : Str :=
  let payloadB64 := b64urlEncode (stringify payload)
  let sig := hmac secret payloadB64
  payloadB64 ++ '.' :: b64urlEncode sig

/-- `getPayloadNonce` (tokens.ts lines 84-89): the nonce, when present
and a non-empty string. -/
def getPayloadNonce (payload : TokenPayload) : Option Str :=
  match payload.n with
  | none => none
  | some s => if s = [] then none else some s

/-- The `[a, b].filter(Boolean)` pattern of `defaultTokenSecrets`
(tokens.ts lines 69-73) and of the handlers' `getSecrets`. -/
def tokenSecretsList (primary alternate : Str) : List Str :=
  [primary, alternate].filter (fun s => s != [])

example : b64urlEncode [77, 97] = "TWE".data := by decide
example : b64urlDecode "TWE".data = [77, 97] := by decide
example : b64urlDecode (b64urlEncode [1, 2, 3, 4]) = [1, 2, 3, 4] := by decide
example : "a.b.c".data.splitOn '.' = ["a".data, "b".data, "c".data] := by decide

/-! ## Nonce ledger (tokens.ts lines 91-108) and its backing store -/

structure PgError where
  code : Str
  message : Str
deriving DecidableEq

inductive ConsumeResult
  | skip
  | ok
  | used
  | error (e : PgError)
deriving DecidableEq

/-- `consumeNonce` (tokens.ts lines 97-108): a falsy nonce is skipped
without touching the store; otherwise the insert's error (if any) is
classified — Postgres code 23505 (unique violation) means the nonce was
already used, anything else is a storage error. `insertError` is the
outcome of the external `admin.from("used_nonces").insert({nonce})`
call. -/
def consumeNonce (nonce : Option Str) (insertError : Option PgError) : ConsumeResult :=
  match nonce with
  | none => .skip
  | some s =>
    if s = [] then .skip
    else
      match insertError with
      | none => .ok
      | some e => if e.code = "23505".data then .used else .error e

/-- The uniqueness-constrained `used_nonces` store: an insert either hits
a backend failure (oracle `fail`, state unchanged), violates the unique
constraint when the nonce is already present (error code 23505), or
succeeds and records the nonce. -/
def storeInsert (s : List Str) (x : Str) (fail : Option Str) : Option PgError × List Str :=
  match fail with
  | some m => (some ⟨"PGERR".data, m⟩, s)
  | none =>
    if x ∈ s then (some ⟨"23505".data, "duplicate key value violates unique constraint".data⟩, s)
    else (none, s ++ [x])

/-- One consume call against the store: the insert is attempted only for
a truthy nonce, exactly as in `consumeNonce`. -/
structure ConsumeEvent where
  nonce : Option Str
  fail : Option Str
deriving DecidableEq

def ledgerStep (s : List Str) (ev : ConsumeEvent) : ConsumeResult × List Str :=
  match ev.nonce with
  | none => (.skip, s)
  | some x =>
    if x = [] then (.skip, s)
    else
      let ins := storeInsert s x ev.fail
      (consumeNonce (some x) ins.1, ins.2)

def ledgerRun (s : List Str) : List ConsumeEvent → List ConsumeResult × List Str
  | [] => ([], s)
  | ev :: rest =>
    let step := ledgerStep s ev
    let tail := ledgerRun step.2 rest
    (step.1 :: tail.1, tail.2)

/-- How many calls in a trace returned `ok` (Fresh) for nonce `x`. -/
def okCountFor (x : Str) (events : List ConsumeEvent) (results : List ConsumeResult) : Nat :=
  (events.zip results).countP (fun er => decide (er.1.nonce = some x ∧ er.2 = ConsumeResult.ok))

/-- How many calls in a trace targeted nonce `x` without a backend
failure (i.e. reached the uniqueness constraint). -/
def attemptCountFor (x : Str) (events : List ConsumeEvent) : Nat :=
  events.countP (fun ev => decide (ev.nonce = some x ∧ ev.fail = none))

/-! ## Unsubscribe page handler (src/app/unsubscribe/page.tsx) -/

inductive UnsubOutcome
  | misconfigured
  | message (ok : Bool) (msg : Str)
  | redirectUsed
  | redirectThanks
deriving DecidableEq

/-- `UnsubscribePage` (unsubscribe/page.tsx lines 27-120), returning the
rendered outcome together with whether the `user_prefs` upsert (the
authorized action) was attempted.  Env values are strings with `[]`
standing for an unset or empty variable (both falsy in the source);
`nonceInsertErr` and `upsertErr` are the outcomes of the two external
database calls. -/
def unsubscribePage (parse : List Nat → Option TokenPayload) (hmac : Str → Str → List Nat)
    (now : Int) (secret secretAlt supabaseUrl serviceRoleKey : Str)
    (tokenParam actionParam : Option Str)
    (nonceInsertErr : Option PgError) (upsertErr : Option Str) : UnsubOutcome × Bool :=
  let token := tokenParam.getD []
  let action := actionParam.getD "unsubscribe".data
  if (secret = [] ∧ secretAlt = []) ∨ supabaseUrl = [] ∨ serviceRoleKey = [] then
    (.misconfigured, false)
  else if token = [] then (.message false "Missing token.".data, false)
  else
    match verifyTokenWithSecrets parse hmac now token (tokenSecretsList secret secretAlt) with
    | .err e => (.message false e, false)
    | .ok payload =>
      let userId := payload.user_id.getD []
      if userId = [] then (.message false "Invalid token payload.".data, false)
      else
        match consumeNonce (getPayloadNonce payload) nonceInsertErr with
        | .used => (.redirectUsed, false)
        | .error _ => (.message false "Failed to validate link.".data, false)
        | _ =>
          let unsubscribed := action ≠ "subscribe".data
          match upsertErr with
          | some m => (.message false m, true)
          | none =>
            if unsubscribed then (.redirectThanks, true)
            else (.message true "You have been resubscribed.".data, true)

/-! ## Survey route handler (src/app/api/survey/route.ts, GET) -/

inductive SurveyResponse
  | json (ok : Bool) (err : Option Str) (status : Nat)
  | redirect (url : Str)
deriving DecidableEq

/-- `GET` of the survey route (survey/route.ts lines 61-115), returning
the HTTP response together with whether the `surveys` insert (the
authorized action) was attempted.  `adminConfigured` is whether the
Supabase env vars are set; `nonceInsertErr` and `surveyInsertErr` are
the outcomes of the two external database calls. -/
def surveyGet (parse : List Nat → Option TokenPayload) (hmac : Str → Str → List Nat)
    (now : Int) (secrets : List Str) (token : Str) (redirectTo : Option Str)
    (adminConfigured : Bool) (nonceInsertErr : Option PgError)
    (surveyInsertErr : Option Str) (appBaseUrl : Str) : SurveyResponse × Bool :=
  match verifyTokenWithSecrets parse hmac now token secrets with
  | .err e => (.json false (some e) 400, false)
  | .ok payload =>
    let nonce := getPayloadNonce payload
    let nonceOutcome : Option (SurveyResponse × Bool) :=
      match nonce with
      | some nz =>
        if ¬ adminConfigured then some (.json false (some "Server not configured".data) 500, false)
        else
          match consumeNonce (some nz) nonceInsertErr with
          | .used =>
            match redirectTo with
            | some _ => some (.redirect (appBaseUrl ++ "/link/used".data), false)
            | none => some (.json false (some "Link already used".data) 410, false)
          | .error _ => some (.json false (some "Failed to validate link".data) 500, false)
          | _ => none
      | none => none
    match nonceOutcome with
    | some r => r
    | none =>
      if ¬ adminConfigured then (.json false (some "Server not configured".data) 500, false)
      else
        match surveyInsertErr with
        | some m => (.json false (some m) 500, true)
        | none =>
          match redirectTo with
          | some r => (.redirect r, true)
          | none => (.json true none 200, true)

/-! ## Digest scheduler (src/app/api/debug/fetch-test/route.ts, digest-run GET) -/

structure PrefRow where
  user_id : Str
  unsubscribed : Option Bool
  send_timezone : Option Str
  send_hour : Option Int
  send_minute : Option Int
deriving DecidableEq

structure ArticleRow where
  id : Str
  title : Str
  url : Str
  summary : Option Str
deriving DecidableEq

/-- `minutesBetween` (fetch-test/route.ts lines 83-88): circular
minute-of-day distance between two wall-clock times. -/
def minutesBetween (targetHour targetMinute currentHour currentMinute : Int) : Int :=
  let targetTotal := targetHour * 60 + targetMinute
  let currentTotal := currentHour * 60 + currentMinute
  let diff := |targetTotal - currentTotal|
  min diff (1440 - diff)

/-- The due filter predicate (fetch-test/route.ts lines 250-257):
defaults are timezone UTC (also for an empty string, which is falsy),
hour 9, minute 0; `localTime` is the external
`getTimeInTimezone(tz, now)`, giving the current wall-clock hour and
minute in a timezone. -/
def prefDue (localTime : Str → Int × Int) (windowMinutes : Int) (pref : PrefRow) : Bool :=
  let timezone :=
    match pref.send_timezone with
    | some tz => if tz = [] then "UTC".data else tz
    | none => "UTC".data
  let targetHour := pref.send_hour.getD 9
  let targetMinute := pref.send_minute.getD 0
  let current := localTime timezone
  minutesBetween targetHour targetMinute current.1 current.2 ≤ windowMinutes

/-- The active-subscriber filter (line 244): `!pref.unsubscribed`, so a
null flag counts as active. -/
def activePrefsOf (prefs : List PrefRow) : List PrefRow :=
  prefs.filter (fun p => p.unsubscribed != some true)

def duePrefsOf (localTime : Str → Int × Int) (windowMinutes : Int)
    (prefs : List PrefRow) : List PrefRow :=
  prefs.filter (prefDue localTime windowMinutes)

inductive SendStatus
  | sent
  | skipped
  | dry
deriving DecidableEq

structure SubResult where
  userId : Str
  status : SendStatus
  error : Option Str
deriving DecidableEq

inductive DigestResponse
  | fatal (err : Str)
  | success (sent : Nat) (results : List SubResult)
deriving DecidableEq

/-- Per-subscriber body of the fan-out loop (lines 283-362), returning
the classified result, the number of `signPayload` calls made for this
subscriber, and the number of mailer calls.  A subscriber without an
email address is skipped before any token is minted; otherwise
3 + 2·|articles| tokens are minted (manage, unsubscribe, resubscribe and
one yes/no pair per article) even in dry-run mode, and the mailer is
called only outside dry-run. -/
def processPref (articles : List ArticleRow) (emailOf : Str → Option Str)
    (dryRun : Bool) (mailOk : Str → Bool) (mailErrText : Str → Str)
    (pref : PrefRow) : SubResult × Nat × Nat :=
  match emailOf pref.user_id with
  | none => (⟨pref.user_id, .skipped, some "No email".data⟩, 0, 0)
  | some _ =>
    let minted := 3 + 2 * articles.length
    if dryRun then (⟨pref.user_id, .dry, none⟩, minted, 0)
    else if mailOk pref.user_id then (⟨pref.user_id, .sent, none⟩, minted, 1)
    else (⟨pref.user_id, .skipped, some (mailErrText pref.user_id)⟩, minted, 1)

structure RunOutput where
  response : DigestResponse
  tokensMinted : Nat
  mailerCalls : Nat
deriving DecidableEq

/-- The digest-run body after authorization and env checks (lines
237-368): fetch subscriber prefs (run-fatal on error), filter to active
then due subscribers with cheap early exits, fetch the article pool
(run-fatal on error), then fan out per subscriber and aggregate.
`emailOf` models the `listUsers` email lookup, `mailOk`/`mailErrText`
the external mailer. -/
def digestRun (prefsResult : Except Str (List PrefRow))
    (articlesResult : Except Str (List ArticleRow))
    (localTime : Str → Int × Int) (windowMinutes : Int) (dryRun : Bool)
    (emailOf : Str → Option Str) (mailOk : Str → Bool) (mailErrText : Str → Str) :
    RunOutput :=
  match prefsResult with
  | .error e => ⟨.fatal e, 0, 0⟩
  | .ok rawPrefs =>
    let activePrefs := activePrefsOf rawPrefs
    if activePrefs = [] then ⟨.success 0 [], 0, 0⟩
    else
      let duePrefs := duePrefsOf localTime windowMinutes activePrefs
      if duePrefs = [] then ⟨.success 0 [], 0, 0⟩
      else
        match articlesResult with
        | .error e => ⟨.fatal e, 0, 0⟩
        | .ok articles =>
          let triples := duePrefs.map (processPref articles emailOf dryRun mailOk mailErrText)
          let results := triples.map (fun t => t.1)
          let minted := (triples.map (fun t => t.2.1)).sum
          let mails := (triples.map (fun t => t.2.2)).sum
          let sent := results.countP (fun r => r.status == SendStatus.sent)
          ⟨.success sent results, minted, mails⟩

/-! ## Lemmas about the base64url codec -/

def strippedEnc (bytes : List Nat) : Str :=
  (base64EncodeChunks bytes).filter (fun c => c != '=')

theorem b64urlEncode_eq_map (bytes : List Nat) :
    b64urlEncode bytes = (strippedEnc bytes).map urlSwap := rfl

theorem charToSix_sixToChar : ∀ v : Nat, v < 64 → charToSix (sixToChar v) = some v := by
  decide

theorem sixToChar_props : ∀ v : Nat, v < 64 →
    sixToChar v ≠ '=' ∧ urlUnswap (urlSwap (sixToChar v)) = sixToChar v ∧
      urlSwap (sixToChar v) ≠ '.' := by
  decide

theorem encodeChunks_chars : ∀ (bytes : List Nat), (∀ b ∈ bytes, b < 256) →
    ∀ c ∈ base64EncodeChunks bytes, c = '=' ∨ ∃ v, v < 64 ∧ c = sixToChar v
  | [], _, c, hc => by simp [base64EncodeChunks] at hc
  | [b1], h, c, hc => by
      have h1 : b1 < 256 := h b1 (by simp)
      simp [base64EncodeChunks] at hc
      rcases hc with rfl | rfl | rfl
      · exact Or.inr ⟨b1 / 4, by omega, rfl⟩
      · exact Or.inr ⟨b1 % 4 * 16, by omega, rfl⟩
      · exact Or.inl rfl
  | [b1, b2], h, c, hc => by
      have h1 : b1 < 256 := h b1 (by simp)
      have h2 : b2 < 256 := h b2 (by simp)
      simp [base64EncodeChunks] at hc
      rcases hc with rfl | rfl | rfl | rfl
      · exact Or.inr ⟨b1 / 4, by omega, rfl⟩
      · exact Or.inr ⟨b1 % 4 * 16 + b2 / 16, by omega, rfl⟩
      · exact Or.inr ⟨b2 % 16 * 4, by omega, rfl⟩
      · exact Or.inl rfl
  | b1 :: b2 :: b3 :: rest, h, c, hc => by
      have h1 : b1 < 256 := h b1 (by simp)
      have h2 : b2 < 256 := h b2 (by simp)
      have h3 : b3 < 256 := h b3 (by simp)
      simp only [base64EncodeChunks, List.mem_cons] at hc
      rcases hc with rfl | rfl | rfl | rfl | hc
      · exact Or.inr ⟨b1 / 4, by omega, rfl⟩
      · exact Or.inr ⟨b1 % 4 * 16 + b2 / 16, by omega, rfl⟩
      · exact Or.inr ⟨b2 % 16 * 4 + b3 / 64, by omega, rfl⟩
      · exact Or.inr ⟨b3 % 64, by omega, rfl⟩
      · exact encodeChunks_chars rest (fun b hb => h b (by simp [hb])) c hc

theorem strippedEnc_chars (bytes : List Nat) (hb : ∀ b ∈ bytes, b < 256) :
    ∀ c ∈ strippedEnc bytes, ∃ v, v < 64 ∧ c = sixToChar v := by
  intro c hc
  have hmem := List.mem_of_mem_filter hc
  have hne : c ≠ '=' := by
    have := List.of_mem_filter hc
    simpa [bne_iff_ne] using this
  rcases encodeChunks_chars bytes hb c hmem with rfl | hv
  · exact absurd rfl hne
  · exact hv

theorem sixBne (v : Nat) (h : v < 64) : (sixToChar v != '=') = true := by
  simpa [bne_iff_ne] using (sixToChar_props v h).1

theorem strippedEnc_decode : ∀ (bytes : List Nat), (∀ b ∈ bytes, b < 256) →
    base64DecodeSix ((strippedEnc bytes).filterMap charToSix) = bytes
  | [], _ => by simp [strippedEnc, base64EncodeChunks, base64DecodeSix]
  | [b1], h => by
      have h1 : b1 < 256 := h b1 (by simp)
      simp only [strippedEnc, base64EncodeChunks, List.filter_cons, sixBne (b1 / 4) (by omega),
        sixBne (b1 % 4 * 16) (by omega)]
      simp only [List.filter_cons, List.filter_nil, bne_self_eq_false, if_true, if_false,
        ite_true, ite_false, reduceIte]
      simp [List.filterMap_cons, charToSix_sixToChar (b1 / 4) (by omega),
        charToSix_sixToChar (b1 % 4 * 16) (by omega), base64DecodeSix]
      omega
  | [b1, b2], h => by
      have h1 : b1 < 256 := h b1 (by simp)
      have h2 : b2 < 256 := h b2 (by simp)
      simp only [strippedEnc, base64EncodeChunks, List.filter_cons, sixBne (b1 / 4) (by omega),
        sixBne (b1 % 4 * 16 + b2 / 16) (by omega), sixBne (b2 % 16 * 4) (by omega)]
      simp only [List.filter_cons, List.filter_nil, bne_self_eq_false, if_true, if_false,
        ite_true, ite_false, reduceIte]
      simp [List.filterMap_cons, charToSix_sixToChar (b1 / 4) (by omega),
        charToSix_sixToChar (b1 % 4 * 16 + b2 / 16) (by omega),
        charToSix_sixToChar (b2 % 16 * 4) (by omega), base64DecodeSix]
      constructor
      · omega
      · omega
  | b1 :: b2 :: b3 :: rest, h => by
      have h1 : b1 < 256 := h b1 (by simp)
      have h2 : b2 < 256 := h b2 (by simp)
      have h3 : b3 < 256 := h b3 (by simp)
      have ih := strippedEnc_decode rest (fun b hb => h b (by simp [hb]))
      simp only [strippedEnc, base64EncodeChunks, List.filter_cons, sixBne (b1 / 4) (by omega),
        sixBne (b1 % 4 * 16 + b2 / 16) (by omega), sixBne (b2 % 16 * 4 + b3 / 64) (by omega),
        sixBne (b3 % 64) (by omega), if_true, ite_true]
      simp only [List.filterMap_cons, charToSix_sixToChar (b1 / 4) (by omega),
        charToSix_sixToChar (b1 % 4 * 16 + b2 / 16) (by omega),
        charToSix_sixToChar (b2 % 16 * 4 + b3 / 64) (by omega),
        charToSix_sixToChar (b3 % 64) (by omega), base64DecodeSix]
      simp only [strippedEnc] at ih
      rw [ih]
      simp only [List.cons.injEq]
      exact ⟨by omega, by omega, by omega, trivial⟩

theorem b64urlEncode_unswap (bytes : List Nat) (hb : ∀ b ∈ bytes, b < 256) :
    (b64urlEncode bytes).map urlUnswap = strippedEnc bytes := by
  rw [b64urlEncode_eq_map, List.map_map]
  have : ∀ c ∈ strippedEnc bytes, (urlUnswap ∘ urlSwap) c = id c := by
    intro c hc
    rcases strippedEnc_chars bytes hb c hc with ⟨v, hv, rfl⟩
    exact (sixToChar_props v hv).2.1
  rw [List.map_congr_left this, List.map_id]

theorem strippedEnc_no_pad (bytes : List Nat) (hb : ∀ b ∈ bytes, b < 256) :
    ∀ c ∈ strippedEnc bytes, c ≠ '=' := by
  intro c hc
  rcases strippedEnc_chars bytes hb c hc with ⟨v, hv, rfl⟩
  exact (sixToChar_props v hv).1

theorem takeWhile_no_pad : ∀ (l : Str), (∀ c ∈ l, c ≠ '=') → ∀ k : Nat,
    (l ++ List.replicate k '=').takeWhile (fun c => c != '=') = l
  | [], _, k => by
      cases k with
      | zero => simp
      | succ m => simp [List.replicate_succ, List.takeWhile_cons]
  | c :: l, h, k => by
      have hc : (c != '=') = true := by
        simpa [bne_iff_ne] using h c (by simp)
      simp only [List.cons_append, List.takeWhile_cons, hc, if_true, ite_true]
      rw [takeWhile_no_pad l (fun x hx => h x (by simp [hx])) k]

theorem takeWhile_no_pad_self (l : Str) (h : ∀ c ∈ l, c ≠ '=') :
    l.takeWhile (fun c => c != '=') = l := by
  have := takeWhile_no_pad l h 0
  simpa using this

/-- Round-trip of the repository's base64url codec on byte lists. -/
theorem b64url_decode_encode (bytes : List Nat) (hb : ∀ b ∈ bytes, b < 256) :
    b64urlDecode (b64urlEncode bytes) = bytes := by
  unfold b64urlDecode
  rw [b64urlEncode_unswap bytes hb]
  unfold nodeBase64Decode
  by_cases hp : 4 - (strippedEnc bytes).length % 4 < 4
  · simp only [hp, if_true, ite_true]
    rw [takeWhile_no_pad (strippedEnc bytes) (strippedEnc_no_pad bytes hb)]
    exact strippedEnc_decode bytes hb
  · simp only [hp, if_false, ite_false]
    rw [takeWhile_no_pad_self (strippedEnc bytes) (strippedEnc_no_pad bytes hb)]
    exact strippedEnc_decode bytes hb

theorem b64urlEncode_no_dot (bytes : List Nat) (hb : ∀ b ∈ bytes, b < 256) :
    '.' ∉ b64urlEncode bytes := by
  rw [b64urlEncode_eq_map]
  intro hmem
  rcases List.mem_map.mp hmem with ⟨c, hc, hswap⟩
  rcases strippedEnc_chars bytes hb c hc with ⟨v, hv, rfl⟩
  exact (sixToChar_props v hv).2.2 hswap

/-! ## Lemmas about token splitting and the verification loop -/

theorem splitOn_dot_pair (a b : Str) (ha : '.' ∉ a) (hb : '.' ∉ b) :
    (a ++ '.' :: b).splitOn '.' = [a, b] := by
  unfold List.splitOn
  have hpa : ∀ x ∈ a, ¬((x == '.') = true) := by
    intro x hx hbeq
    exact ha (by simpa using (beq_iff_eq.mp hbeq ▸ hx))
  have hpb : ∀ x ∈ b, ¬((x == '.') = true) := by
    intro x hx hbeq
    exact hb (by simpa using (beq_iff_eq.mp hbeq ▸ hx))
  rw [List.splitOnP_first _ _ hpa '.' (by simp) b, List.splitOnP_eq_single _ _ hpb]

theorem splitOn_signPayload (stringify : TokenPayload → List Nat)
    (hmac : Str → Str → List Nat) (p : TokenPayload) (s : Str)
    (hpb : ∀ x ∈ stringify p, x < 256)
    (hsb : ∀ x ∈ hmac s (b64urlEncode (stringify p)), x < 256) :
    (signPayload stringify hmac p s).splitOn '.' =
      [b64urlEncode (stringify p), b64urlEncode (hmac s (b64urlEncode (stringify p)))] := by
  unfold signPayload
  exact splitOn_dot_pair _ _ (b64urlEncode_no_dot _ hpb) (b64urlEncode_no_dot _ hsb)

theorem verifyLoop_skip (parse : List Nat → Option TokenPayload)
    (hmac : Str → Str → List Nat) (now : Int) (pb sb : Str) :
    ∀ (pre rest : List Str),
      (∀ sec ∈ pre, sec = [] ∨ hmac sec pb ≠ b64urlDecode sb) →
      verifyLoop parse hmac now pb sb (pre ++ rest) = verifyLoop parse hmac now pb sb rest
  | [], _, _ => rfl
  | sec :: pre, rest, h => by
      have hrec := verifyLoop_skip parse hmac now pb sb pre rest
        (fun x hx => h x (by simp [hx]))
      rcases h sec (by simp) with hsec | hsec
      · simp only [List.cons_append, verifyLoop, hsec, if_true, ite_true]
        exact hrec
      · have hcond : ¬((hmac sec pb).length = (b64urlDecode sb).length ∧
            hmac sec pb = b64urlDecode sb) := by
          intro hc
          exact hsec hc.2
        by_cases hemp : sec = []
        · simp only [List.cons_append, verifyLoop, hemp, if_true, ite_true]
          exact hrec
        · simp only [List.cons_append, verifyLoop, hemp, if_false, ite_false, hcond]
          exact hrec

theorem verifyLoop_ne_format (parse : List Nat → Option TokenPayload)
    (hmac : Str → Str → List Nat) (now : Int) (pb sb : Str) :
    ∀ secrets, verifyLoop parse hmac now pb sb secrets ≠
      VerifyResult.err "Bad token format".data
  | [] => by
      simp only [verifyLoop, ne_eq, VerifyResult.err.injEq]
      decide
  | sec :: rest => by
      have hrec := verifyLoop_ne_format parse hmac now pb sb rest
      simp only [verifyLoop]
      by_cases hemp : sec = []
      · simpa [hemp] using hrec
      · simp only [hemp, if_false, ite_false]
        by_cases hcond : (hmac sec pb).length = (b64urlDecode sb).length ∧
            hmac sec pb = b64urlDecode sb
        · rw [if_pos hcond]
          split
          · exact hrec
          · split
            · split
              · simp only [ne_eq, VerifyResult.err.injEq]
                decide
              · simp
            · simp
        · rw [if_neg hcond]
          exact hrec

theorem verifyLoop_no_match (parse : List Nat → Option TokenPayload)
    (hmac : Str → Str → List Nat) (now : Int) (pb sb : Str) (secrets : List Str)
    (h : ∀ sec ∈ secrets, sec = [] ∨ hmac sec pb ≠ b64urlDecode sb) :
    verifyLoop parse hmac now pb sb secrets =
      VerifyResult.err "Invalid token or signature".data := by
  have := verifyLoop_skip parse hmac now pb sb secrets [] h
  simpa [verifyLoop] using this

/-- Evaluation of the verifier on a token freshly produced by
`signPayload` with a non-empty secret, under the round-trip facts for
the external serializer (`parse` after `stringify` is the identity) and
byte bounds on the serializer and HMAC outputs. -/
theorem verify_sign_eval (stringify : TokenPayload → List Nat)
    (parse : List Nat → Option TokenPayload) (hmac : Str → Str → List Nat)
    (p : TokenPayload) (s : Str) (now : Int) (rest : List Str) (hs : s ≠ [])
    (hparse : parse (stringify p) = some p)
    (hpb : ∀ x ∈ stringify p, x < 256)
    (hsb : ∀ x ∈ hmac s (b64urlEncode (stringify p)), x < 256) :
    verifyTokenWithSecrets parse hmac now (signPayload stringify hmac p s) (s :: rest) =
      match p.exp with
      | some e =>
        if now > e then VerifyResult.err "Token expired".data else VerifyResult.ok p
      | none => VerifyResult.ok p := by
  unfold verifyTokenWithSecrets
  rw [show (signPayload stringify hmac p s).splitOn '.' =
      [b64urlEncode (stringify p), b64urlEncode (hmac s (b64urlEncode (stringify p)))] from
    splitOn_signPayload stringify hmac p s hpb hsb]
  simp only [verifyLoop, hs, if_false, ite_false]
  rw [b64url_decode_encode _ hsb]
  simp only [and_self, if_true, ite_true, true_and]
  rw [b64url_decode_encode _ hpb, hparse]

/-! ## Lemmas about the nonce ledger -/

theorem okCountFor_cons (x : Str) (ev : ConsumeEvent) (events : List ConsumeEvent)
    (r : ConsumeResult) (rs : List ConsumeResult) :
    okCountFor x (ev :: events) (r :: rs) =
      okCountFor x events rs +
        (if ev.nonce = some x ∧ r = ConsumeResult.ok then 1 else 0) := by
  simp [okCountFor, List.countP_cons]

theorem attemptCountFor_cons (x : Str) (ev : ConsumeEvent) (events : List ConsumeEvent) :
    attemptCountFor x (ev :: events) =
      attemptCountFor x events + (if ev.nonce = some x ∧ ev.fail = none then 1 else 0) := by
  simp [attemptCountFor, List.countP_cons]

theorem ledgerRun_cons (s : List Str) (ev : ConsumeEvent) (rest : List ConsumeEvent) :
    ledgerRun s (ev :: rest) =
      ((ledgerStep s ev).1 :: (ledgerRun (ledgerStep s ev).2 rest).1,
        (ledgerRun (ledgerStep s ev).2 rest).2) := rfl

theorem ledgerStep_result_of_mem (s : List Str) (x : Str) (hx : x ≠ []) (hmem : x ∈ s) :
    ∀ fail, (ledgerStep s ⟨some x, fail⟩).1 =
      (match fail with
       | none => ConsumeResult.used
       | some m => ConsumeResult.error ⟨"PGERR".data, m⟩)
  | none => by
      simp only [ledgerStep, storeInsert, hx, hmem, if_false, if_true, ite_true, ite_false]
      simp [consumeNonce, hx]
  | some m => by
      simp only [ledgerStep, storeInsert, hx, if_false, ite_false]
      simp only [consumeNonce, hx, if_false, ite_false]
      have : ("PGERR".data : Str) ≠ "23505".data := by decide
      simp [this]

theorem ledgerStep_state_of_other (s : List Str) (ev : ConsumeEvent) (x : Str)
    (h : ev.nonce ≠ some x) (hmem : x ∉ s) : x ∉ (ledgerStep s ev).2 := by
  rcases ev with ⟨nonce, fail⟩
  cases nonce with
  | none => simpa [ledgerStep] using hmem
  | some y =>
    by_cases hy : y = []
    · simpa [ledgerStep, hy] using hmem
    · cases fail with
      | some m => simpa [ledgerStep, storeInsert, hy] using hmem
      | none =>
        by_cases hmemy : y ∈ s
        · simpa [ledgerStep, storeInsert, hy, hmemy] using hmem
        · simp only [ledgerStep, storeInsert, hy, hmemy, if_false, ite_false]
          intro hx
          rcases List.mem_append.mp hx with hx | hx
          · exact hmem hx
          · have : x = y := by simpa using hx
            exact h (by simp [this])

theorem ledgerStep_state_mono (s : List Str) (ev : ConsumeEvent) (x : Str)
    (hmem : x ∈ s) : x ∈ (ledgerStep s ev).2 := by
  rcases ev with ⟨nonce, fail⟩
  cases nonce with
  | none => simpa [ledgerStep] using hmem
  | some y =>
    by_cases hy : y = []
    · simpa [ledgerStep, hy] using hmem
    · cases fail with
      | some m => simpa [ledgerStep, storeInsert, hy] using hmem
      | none =>
        by_cases hmemy : y ∈ s
        · simpa [ledgerStep, storeInsert, hy, hmemy] using hmem
        · simp only [ledgerStep, storeInsert, hy, hmemy, if_false, ite_false]
          exact List.mem_append.mpr (Or.inl hmem)

theorem okCount_zero_of_mem (x : Str) (hx : x ≠ []) :
    ∀ (events : List ConsumeEvent) (s : List Str), x ∈ s →
      okCountFor x events (ledgerRun s events).1 = 0
  | [], s, _ => by simp [okCountFor, ledgerRun]
  | ev :: rest, s, hmem => by
      rw [ledgerRun_cons, okCountFor_cons]
      have hrec := okCount_zero_of_mem x hx rest (ledgerStep s ev).2
        (ledgerStep_state_mono s ev x hmem)
      rw [hrec]
      by_cases hev : ev.nonce = some x
      · rcases ev with ⟨nonce, fail⟩
        simp only at hev
        subst hev
        rw [ledgerStep_result_of_mem s x hx hmem fail]
        cases fail with
        | none => simp
        | some m => simp
      · simp [hev]

theorem okCount_eq_min (x : Str) (hx : x ≠ []) :
    ∀ (events : List ConsumeEvent) (s : List Str), x ∉ s →
      okCountFor x events (ledgerRun s events).1 = min 1 (attemptCountFor x events)
  | [], s, _ => by simp [okCountFor, attemptCountFor, ledgerRun]
  | ev :: rest, s, hmem => by
      rw [ledgerRun_cons, okCountFor_cons, attemptCountFor_cons]
      by_cases hev : ev.nonce = some x
      · rcases ev with ⟨nonce, fail⟩
        simp only at hev
        subst hev
        cases fail with
        | some m =>
          have hstep : (ledgerStep s ⟨some x, some m⟩).1 =
              ConsumeResult.error ⟨"PGERR".data, m⟩ := by
            simp only [ledgerStep, storeInsert, hx, if_false, ite_false]
            simp only [consumeNonce, hx, if_false, ite_false]
            have hne : ("PGERR".data : Str) ≠ "23505".data := by decide
            simp [hne]
          have hstate : (ledgerStep s ⟨some x, some m⟩).2 = s := by
            simp [ledgerStep, storeInsert, hx]
          rw [hstep, hstate, okCount_eq_min x hx rest s hmem]
          simp
        | none =>
          have hstep : (ledgerStep s ⟨some x, none⟩).1 = ConsumeResult.ok := by
            simp [ledgerStep, storeInsert, hx, hmem, consumeNonce]
          have hstate : (ledgerStep s ⟨some x, none⟩).2 = s ++ [x] := by
            simp [ledgerStep, storeInsert, hx, hmem]
          rw [hstep, hstate, okCount_zero_of_mem x hx rest (s ++ [x]) (by simp)]
          simp
      · have hnot : x ∉ (ledgerStep s ev).2 := ledgerStep_state_of_other s ev x hev hmem
        rw [okCount_eq_min x hx rest (ledgerStep s ev).2 hnot]
        simp [hev]

/-! ## Concrete probe instances used by witnesses and counterexamples -/

def probePayloadExp5 : TokenPayload := ⟨some 5, none, none, []⟩

def probePayloadExp4 : TokenPayload := ⟨some 4, none, none, []⟩

def probePayloadBare : TokenPayload := ⟨none, none, none, []⟩

def probePayloadFull : TokenPayload := ⟨some 5, some "z".data, some "u".data, []⟩

/-- A toy serializer standing in for `JSON.stringify` on the payloads
the witnesses use. -/
def probeStringify (p : TokenPayload) : List Nat :=
  if p = probePayloadExp5 then [0]
  else if p = probePayloadExp4 then [1]
  else if p = probePayloadFull then [2]
  else [3]

/-- The matching toy deserializer standing in for `JSON.parse`. -/
def probeParse (bs : List Nat) : Option TokenPayload :=
  if bs = [0] then some probePayloadExp5
  else if bs = [1] then some probePayloadExp4
  else if bs = [2] then some probePayloadFull
  else if bs = [] then some probePayloadBare
  else none

/-- A toy MAC standing in for HMAC-SHA-256: depends only on the secret,
so distinct secrets produce distinct tags. -/
def probeHmac (secret msg : Str) : List Nat :=
  if secret = "k".data then [1] else [9]

def probeEvents : List ConsumeEvent :=
  [⟨some "z".data, none⟩, ⟨some "z".data, none⟩, ⟨some "z".data, some "boom".data⟩]

theorem getPayloadNonce_ne_empty (p : TokenPayload) (nz : Str)
    (h : getPayloadNonce p = some nz) : nz ≠ [] := by
  unfold getPayloadNonce at h
  cases hn : p.n with
  | none => rw [hn] at h; exact absurd h (by simp)
  | some s =>
    rw [hn] at h
    simp only [] at h
    by_cases hs : s = []
    · rw [if_pos hs] at h; exact absurd h (by simp)
    · rw [if_neg hs] at h
      have hsz : s = nz := by simpa using h
      exact hsz ▸ hs

/-! ## Claim theorems -/

/-- C1: for every payload `p` and non-empty secret `s`, verifying the
token produced by `signPayload p s` against the secret list `[s]`
succeeds and returns exactly `p`, provided the external JSON round-trip
holds for `p`, the serializer and MAC outputs are byte lists, and `p`'s
`exp` field, when present as a number, is not in the past at
verification time. -/
theorem sign_verify_roundtrip (stringify : TokenPayload → List Nat)
    (parse : List Nat → Option TokenPayload) (hmac : Str → Str → List Nat)
    (p : TokenPayload) (s : Str) (now : Int) (hs : s ≠ [])
    (hparse : parse (stringify p) = some p)
    (hpb : ∀ x ∈ stringify p, x < 256)
    (hsb : ∀ x ∈ hmac s (b64urlEncode (stringify p)), x < 256)
    (hexp : ∀ e : Int, p.exp = some e → now ≤ e) :
    verifyTokenWithSecrets parse hmac now (signPayload stringify hmac p s) [s] =
      VerifyResult.ok p := by
  rw [verify_sign_eval stringify parse hmac p s now [] hs hparse hpb hsb]
  split
  · rename_i e heq
    rw [if_neg]
    have := hexp e heq
    omega
  · rfl

/-- C1 witness: the round-trip at a concrete payload, secret and time. -/
theorem sign_verify_roundtrip_witness :
    ("k".data ≠ ([] : Str)) ∧
      probeParse (probeStringify probePayloadExp5) = some probePayloadExp5 ∧
      verifyTokenWithSecrets probeParse probeHmac 5
          (signPayload probeStringify probeHmac probePayloadExp5 "k".data) ["k".data] =
        VerifyResult.ok probePayloadExp5 :=
  ⟨by decide, by decide,
    sign_verify_roundtrip probeStringify probeParse probeHmac probePayloadExp5 "k".data 5
      (by decide) (by decide) (by decide) (by decide)
      (by intro e he; simp [probePayloadExp5] at he; omega)⟩

/-- C3: a correctly signed token with `exp` equal to the verification
time is still valid, one with `exp` one second in the past is reported
expired, and a token whose signature matches no candidate secret never
produces the expired error (the expiry check runs only after a
signature match). -/
theorem expiry_boundary (stringify : TokenPayload → List Nat)
    (parse : List Nat → Option TokenPayload) (hmac : Str → Str → List Nat)
    (p1 p2 : TokenPayload) (s : Str) (now : Int) (hs : s ≠ [])
    (h1 : parse (stringify p1) = some p1)
    (hb1 : ∀ x ∈ stringify p1, x < 256)
    (hd1 : ∀ x ∈ hmac s (b64urlEncode (stringify p1)), x < 256)
    (he1 : p1.exp = some now)
    (h2 : parse (stringify p2) = some p2)
    (hb2 : ∀ x ∈ stringify p2, x < 256)
    (hd2 : ∀ x ∈ hmac s (b64urlEncode (stringify p2)), x < 256)
    (he2 : p2.exp = some (now - 1)) :
    verifyTokenWithSecrets parse hmac now (signPayload stringify hmac p1 s) [s] =
        VerifyResult.ok p1 ∧
    verifyTokenWithSecrets parse hmac now (signPayload stringify hmac p2 s) [s] =
        VerifyResult.err "Token expired".data ∧
    (∀ (token : Str) (secrets : List Str),
      (∀ sec ∈ secrets, ∀ pb sb : Str, token.splitOn '.' = [pb, sb] →
          sec ≠ [] → hmac sec pb ≠ b64urlDecode sb) →
      verifyTokenWithSecrets parse hmac now token secrets ≠
        VerifyResult.err "Token expired".data) := by
  refine ⟨?_, ?_, ?_⟩
  · rw [verify_sign_eval stringify parse hmac p1 s now [] hs h1 hb1 hd1, he1]
    simp only []
    rw [if_neg (by omega)]
  · rw [verify_sign_eval stringify parse hmac p2 s now [] hs h2 hb2 hd2, he2]
    simp only []
    rw [if_pos (by omega)]
  · intro token secrets hnomatch
    unfold verifyTokenWithSecrets
    cases hsp : token.splitOn '.' with
    | nil => simp only [ne_eq, VerifyResult.err.injEq]; decide
    | cons a tail =>
      cases tail with
      | nil => simp only [ne_eq, VerifyResult.err.injEq]; decide
      | cons b tail2 =>
        cases tail2 with
        | nil =>
          show verifyLoop parse hmac now a b secrets ≠ VerifyResult.err "Token expired".data
          rw [verifyLoop_no_match parse hmac now a b secrets (by
            intro sec hsec
            by_cases hemp : sec = []
            · exact Or.inl hemp
            · exact Or.inr (hnomatch sec hsec a b hsp hemp))]
          simp only [ne_eq, VerifyResult.err.injEq]
          decide
        | cons c tail3 => simp only [ne_eq, VerifyResult.err.injEq]; decide

/-- C3 witness: the boundary at a concrete payload pair, secret and
time, and the no-match clause at a concrete forged token. -/
theorem expiry_boundary_witness :
    verifyTokenWithSecrets probeParse probeHmac 5
        (signPayload probeStringify probeHmac probePayloadExp5 "k".data) ["k".data] =
      VerifyResult.ok probePayloadExp5 ∧
    verifyTokenWithSecrets probeParse probeHmac 5
        (signPayload probeStringify probeHmac probePayloadExp4 "k".data) ["k".data] =
      VerifyResult.err "Token expired".data ∧
    verifyTokenWithSecrets probeParse probeHmac 5 "a.zz".data ["k".data] ≠
      VerifyResult.err "Token expired".data := by
  have h := expiry_boundary probeStringify probeParse probeHmac
    probePayloadExp5 probePayloadExp4 "k".data 5
    (by decide) (by decide) (by decide) (by decide) (by decide)
    (by decide) (by decide) (by decide) (by decide)
  refine ⟨h.1, h.2.1, h.2.2 "a.zz".data ["k".data] ?_⟩
  intro sec hsec pb sb hsp hemp
  have hsec1 : sec = "k".data := by simpa using hsec
  have hls : [pb, sb] = ["a".data, "zz".data] := by
    rw [← hsp]; decide
  have hpb : pb = "a".data := ((List.cons.injEq _ _ _ _).mp hls).1
  have hsb : sb = "zz".data := by
    have h2 := ((List.cons.injEq _ _ _ _).mp hls).2
    simpa using h2
  rw [hsec1, hpb, hsb]
  decide

/-- C4: a token signed with the alternate secret `b` verifies
successfully against the ordered secret list `[a, b]` (the verifier
tries each candidate in order and succeeds on the first signature
match), and the same token fails verification against `[a]` alone,
provided the two secrets produce different MACs on this payload. -/
theorem secret_rotation (stringify : TokenPayload → List Nat)
    (parse : List Nat → Option TokenPayload) (hmac : Str → Str → List Nat)
    (p : TokenPayload) (a b : Str) (now : Int) (hbne : b ≠ [])
    (hparse : parse (stringify p) = some p)
    (hpb : ∀ x ∈ stringify p, x < 256)
    (hdb : ∀ x ∈ hmac b (b64urlEncode (stringify p)), x < 256)
    (hexp : ∀ e : Int, p.exp = some e → now ≤ e)
    (hne : hmac a (b64urlEncode (stringify p)) ≠ hmac b (b64urlEncode (stringify p))) :
    verifyTokenWithSecrets parse hmac now (signPayload stringify hmac p b) [a, b] =
        VerifyResult.ok p ∧
    verifyTokenWithSecrets parse hmac now (signPayload stringify hmac p b) [a] =
        VerifyResult.err "Invalid token or signature".data := by
  have hskip : ∀ sec ∈ ([a] : List Str), sec = [] ∨
      hmac sec (b64urlEncode (stringify p)) ≠
        b64urlDecode (b64urlEncode (hmac b (b64urlEncode (stringify p)))) := by
    intro sec hsec
    have hsa : sec = a := by simpa using hsec
    subst hsa
    by_cases hemp : sec = []
    · exact Or.inl hemp
    · refine Or.inr ?_
      rw [b64url_decode_encode _ hdb]
      exact hne
  constructor
  · have hsingle := verify_sign_eval stringify parse hmac p b now [] hbne hparse hpb hdb
    unfold verifyTokenWithSecrets at hsingle ⊢
    rw [splitOn_signPayload stringify hmac p b hpb hdb] at hsingle ⊢
    simp only [] at hsingle ⊢
    rw [show ([a, b] : List Str) = [a] ++ [b] from rfl,
      verifyLoop_skip parse hmac now _ _ [a] [b] hskip, hsingle]
    split
    · rename_i e heq
      rw [if_neg]
      have := hexp e heq
      omega
    · rfl
  · unfold verifyTokenWithSecrets
    rw [splitOn_signPayload stringify hmac p b hpb hdb]
    simp only []
    exact verifyLoop_no_match parse hmac now _ _ [a] hskip

/-- C4 witness: rotation at concrete secrets, payload and time. -/
theorem secret_rotation_witness :
    verifyTokenWithSecrets probeParse probeHmac 5
        (signPayload probeStringify probeHmac probePayloadExp5 "k".data)
        ["x".data, "k".data] = VerifyResult.ok probePayloadExp5 ∧
    verifyTokenWithSecrets probeParse probeHmac 5
        (signPayload probeStringify probeHmac probePayloadExp5 "k".data)
        ["x".data] = VerifyResult.err "Invalid token or signature".data :=
  secret_rotation probeStringify probeParse probeHmac probePayloadExp5
    "x".data "k".data 5 (by decide) (by decide) (by decide) (by decide)
    (by intro e he; simp [probePayloadExp5] at he; omega) (by decide)

/-- C10: a token whose signature matches a candidate secret (no earlier
secret in the list matching) and whose payload parses to a record with
no numeric `exp` field verifies successfully at every verification time:
such a token never expires. -/
theorem missing_exp_never_expires (parse : List Nat → Option TokenPayload)
    (hmac : Str → Str → List Nat) (token pb sb : Str) (pre post : List Str)
    (s : Str) (p : TokenPayload)
    (hsplit : token.splitOn '.' = [pb, sb])
    (hpre : ∀ sec ∈ pre, sec = [] ∨ hmac sec pb ≠ b64urlDecode sb)
    (hs : s ≠ []) (hmatch : hmac s pb = b64urlDecode sb)
    (hp : parse (b64urlDecode pb) = some p) (hexp : p.exp = none) :
    ∀ now : Int,
      verifyTokenWithSecrets parse hmac now token (pre ++ s :: post) =
        VerifyResult.ok p := by
  intro now
  unfold verifyTokenWithSecrets
  rw [hsplit]
  show verifyLoop parse hmac now pb sb (pre ++ s :: post) = VerifyResult.ok p
  rw [verifyLoop_skip parse hmac now pb sb pre (s :: post) hpre]
  simp only [verifyLoop, hs, if_false, ite_false]
  rw [if_pos ⟨by rw [hmatch], hmatch⟩, hp]
  simp only []
  rw [hexp]

/-- C10 witness: a concrete `exp`-less token accepted at an arbitrary
late verification time. -/
theorem missing_exp_never_expires_witness :
    probeParse (b64urlDecode "a".data) = some probePayloadBare ∧
      probePayloadBare.exp = none ∧
      verifyTokenWithSecrets probeParse probeHmac 999999999 "a.AQ".data
          (["x".data] ++ "k".data :: []) = VerifyResult.ok probePayloadBare :=
  ⟨by decide, by decide,
    missing_exp_never_expires probeParse probeHmac "a.AQ".data "a".data "AQ".data
      ["x".data] [] "k".data probePayloadBare (by decide)
      (by intro sec hsec; right; have : sec = "x".data := by simpa using hsec
          rw [this]; decide)
      (by decide) (by decide) (by decide) (by decide) 999999999⟩

theorem verify_empty_secrets (parse : List Nat → Option TokenPayload)
    (hmac : Str → Str → List Nat) (now : Int) (token : Str) :
    verifyTokenWithSecrets parse hmac now token [] =
        VerifyResult.err "Invalid token or signature".data ∨
    verifyTokenWithSecrets parse hmac now token [] =
        VerifyResult.err "Bad token format".data := by
  unfold verifyTokenWithSecrets
  cases hsp : token.splitOn '.' with
  | nil => exact Or.inr rfl
  | cons a tail =>
    cases tail with
    | nil => exact Or.inr rfl
    | cons b tail2 =>
      cases tail2 with
      | nil => exact Or.inl rfl
      | cons c tail3 => exact Or.inr rfl

/-- C9 counterexample: the token `"a."` splits into two parts with an
empty signature half; the claim classifies it as `BadFormat`, but the
code lets it through the format check and reports the generic signature
failure instead. -/
theorem token_format_counterexample :
    "a.".data.splitOn '.' = ["a".data, ([] : Str)] ∧
    verifyTokenWithSecrets probeParse probeHmac 0 "a.".data ["k".data] =
        VerifyResult.err "Invalid token or signature".data ∧
    verifyTokenWithSecrets probeParse probeHmac 0 "a.".data ["k".data] ≠
        VerifyResult.err "Bad token format".data := by decide

/-- C9 amended: decoding splits the token on every dot and reports
`BadFormat` exactly when the split does not yield two parts; two-part
tokens with an empty half pass the format check and fall through to
signature verification (so an empty signature half is a signature
failure, not `BadFormat`). -/
theorem token_format_amended (parse : List Nat → Option TokenPayload)
    (hmac : Str → Str → List Nat) (now : Int) (token : Str) (secrets : List Str) :
    verifyTokenWithSecrets parse hmac now token secrets =
        VerifyResult.err "Bad token format".data ↔
      (token.splitOn '.').length ≠ 2 := by
  unfold verifyTokenWithSecrets
  cases hsp : token.splitOn '.' with
  | nil => exact iff_of_true rfl (by decide)
  | cons a tail =>
    cases tail with
    | nil => exact iff_of_true rfl (by simp)
    | cons b tail2 =>
      cases tail2 with
      | nil => exact iff_of_false (verifyLoop_ne_format parse hmac now a b secrets) (by simp)
      | cons c tail3 => exact iff_of_true rfl (by simp)

/-- C5 counterexample: with no secret configured, the survey route
answers an arbitrary token with the generic bad-token error (HTTP 400)
— byte for byte the same response a wrong-signature token receives
under a configured secret — not a distinct configuration error. -/
theorem no_secrets_counterexample :
    surveyGet probeParse probeHmac 0 [] "a.zz".data none true none none [] =
        (SurveyResponse.json false (some "Invalid token or signature".data) 400, false) ∧
    surveyGet probeParse probeHmac 0 ["k".data] "a.zz".data none true none none [] =
        (SurveyResponse.json false (some "Invalid token or signature".data) 400, false) := by
  decide

/-- C5 amended: with neither secret configured, the unsubscribe page
fails closed with a dedicated server-misconfiguration outcome before
verifying anything; `verifyTokenWithSecrets` itself, however, fails an
empty secret list with the generic bad-token errors, and the survey
route surfaces that generic invalid-link error (HTTP 400, never the
authorized action) rather than a configuration error. -/
theorem no_secrets_behavior (parse : List Nat → Option TokenPayload)
    (hmac : Str → Str → List Nat) (now : Int) (supabaseUrl serviceRoleKey : Str)
    (tokenParam actionParam : Option Str) (ins : Option PgError) (up : Option Str)
    (token : Str) (redirectTo : Option Str) (adminC : Bool) (nErr : Option PgError)
    (sErr : Option Str) (base : Str) :
    unsubscribePage parse hmac now [] [] supabaseUrl serviceRoleKey tokenParam
        actionParam ins up = (UnsubOutcome.misconfigured, false) ∧
    (surveyGet parse hmac now [] token redirectTo adminC nErr sErr base).2 = false ∧
    ((surveyGet parse hmac now [] token redirectTo adminC nErr sErr base).1 =
        SurveyResponse.json false (some "Invalid token or signature".data) 400 ∨
      (surveyGet parse hmac now [] token redirectTo adminC nErr sErr base).1 =
        SurveyResponse.json false (some "Bad token format".data) 400) := by
  refine ⟨by simp [unsubscribePage], ?_, ?_⟩
  · unfold surveyGet
    rcases verify_empty_secrets parse hmac now token with h | h <;> rw [h]
  · unfold surveyGet
    rcases verify_empty_secrets parse hmac now token with h | h <;> rw [h]
    · exact Or.inl rfl
    · exact Or.inr rfl

/-- C7 counterexample: a correctly signed token whose payload carries no
`user_id` is accepted by the survey route, which records the survey
answer (HTTP 200, insert attempted) instead of reporting an
invalid-payload outcome. -/
theorem subject_id_counterexample :
    probeParse (b64urlDecode "a".data) = some probePayloadBare ∧
    probePayloadBare.user_id = none ∧
    surveyGet probeParse probeHmac 0 ["k".data] "a.AQ".data none true none none [] =
        (SurveyResponse.json true none 200, true) := by decide

/-- C7 amended: after a successful signature verification the
unsubscribe handler checks that `user_id` is present and non-empty,
answering `Invalid token payload.` without attempting the action when it
is absent; the survey handler performs no such check and proceeds to
record the survey answer even when `user_id` is absent. -/
theorem subject_id_check (parse : List Nat → Option TokenPayload)
    (hmac : Str → Str → List Nat) (now : Int)
    (secret secretAlt supabaseUrl serviceRoleKey : Str) (token : Str)
    (actionParam : Option Str) (ins : Option PgError) (up : Option Str)
    (p : TokenPayload)
    (hsec : ¬(secret = [] ∧ secretAlt = []))
    (hurl : supabaseUrl ≠ []) (hkey : serviceRoleKey ≠ []) (htok : token ≠ [])
    (hver : verifyTokenWithSecrets parse hmac now token
        (tokenSecretsList secret secretAlt) = VerifyResult.ok p)
    (huid : p.user_id.getD [] = []) :
    unsubscribePage parse hmac now secret secretAlt supabaseUrl serviceRoleKey
        (some token) actionParam ins up =
      (UnsubOutcome.message false "Invalid token payload.".data, false) ∧
    (∀ (secrets : List Str) (redirectTo : Option Str) (nErr : Option PgError)
        (base : Str) (q : TokenPayload),
      verifyTokenWithSecrets parse hmac now token secrets = VerifyResult.ok q →
      q.n = none →
      (surveyGet parse hmac now secrets token redirectTo true nErr none base).2 = true) := by
  constructor
  · unfold unsubscribePage
    rw [if_neg (by
      intro hcond
      rcases hcond with h | h | h
      · exact hsec h
      · exact hurl h
      · exact hkey h)]
    simp only [Option.getD_some]
    rw [if_neg htok, hver]
    simp only []
    rw [if_pos huid]
  · intro secrets redirectTo nErr base q hq hn
    unfold surveyGet
    rw [hq]
    simp only [getPayloadNonce, hn]
    cases redirectTo <;> rfl

/-- C7 witness: the unsubscribe branch of the amended claim at a
concrete signed token whose payload has no `user_id`. -/
theorem subject_id_check_witness :
    verifyTokenWithSecrets probeParse probeHmac 0 "a.AQ".data
        (tokenSecretsList "k".data []) = VerifyResult.ok probePayloadBare ∧
    unsubscribePage probeParse probeHmac 0 "k".data [] "U".data "K".data
        (some "a.AQ".data) none none none =
      (UnsubOutcome.message false "Invalid token payload.".data, false) :=
  ⟨by decide,
    (subject_id_check probeParse probeHmac 0 "k".data [] "U".data "K".data
      "a.AQ".data none none none probePayloadBare
      (by decide) (by decide) (by decide) (by decide) (by decide) (by decide)).1⟩

/-- C2: in any sequence of consume calls starting from a store not yet
containing nonce `x`, the ledger returns Fresh (`ok`) for `x` exactly
once — at the first call that reaches the uniqueness constraint, i.e.
`min 1` of the non-failing attempts — while a call finding `x` already
stored returns `used` (unique violation 23505) and a backend failure
returns a `error` outcome distinct from both `used` and `ok`; a storage
error makes the unsubscribe handler answer `Failed to validate link.`
without attempting the action, rather than proceeding as fresh or as
already-used. -/
theorem nonce_single_use (x : Str) (events : List ConsumeEvent) (s : List Str)
    (hx : x ≠ []) (hs : x ∉ s) :
    okCountFor x events (ledgerRun s events).1 = min 1 (attemptCountFor x events) ∧
    (∀ t : List Str, x ∈ t → (ledgerStep t ⟨some x, none⟩).1 = ConsumeResult.used) ∧
    (∀ (t : List Str) (m : Str), x ∈ t →
        (ledgerStep t ⟨some x, some m⟩).1 = ConsumeResult.error ⟨"PGERR".data, m⟩) ∧
    (∀ e : PgError, ConsumeResult.error e ≠ ConsumeResult.used ∧
        ConsumeResult.error e ≠ ConsumeResult.ok) ∧
    (∀ (parse : List Nat → Option TokenPayload) (hmac : Str → Str → List Nat)
        (now : Int) (secret secretAlt supabaseUrl serviceRoleKey token : Str)
        (actionParam : Option Str) (e : PgError) (up : Option Str)
        (p : TokenPayload) (nz : Str),
      ¬(secret = [] ∧ secretAlt = []) → supabaseUrl ≠ [] → serviceRoleKey ≠ [] →
      token ≠ [] →
      verifyTokenWithSecrets parse hmac now token (tokenSecretsList secret secretAlt) =
        VerifyResult.ok p →
      p.user_id.getD [] ≠ [] →
      getPayloadNonce p = some nz →
      e.code ≠ "23505".data →
      unsubscribePage parse hmac now secret secretAlt supabaseUrl serviceRoleKey
          (some token) actionParam (some e) up =
        (UnsubOutcome.message false "Failed to validate link.".data, false)) := by
  refine ⟨okCount_eq_min x hx events s hs, ?_, ?_, ?_, ?_⟩
  · intro t hmem
    exact (ledgerStep_result_of_mem t x hx hmem none)
  · intro t m hmem
    exact (ledgerStep_result_of_mem t x hx hmem (some m))
  · intro e
    exact ⟨by simp, by simp⟩
  · intro parse hmac now secret secretAlt supabaseUrl serviceRoleKey token actionParam
      e up p nz hsec hurl hkey htok hver huid hnz hcode
    unfold unsubscribePage
    rw [if_neg (by
      intro hcond
      rcases hcond with h | h | h
      · exact hsec h
      · exact hurl h
      · exact hkey h)]
    simp only [Option.getD_some]
    rw [if_neg htok, hver]
    simp only []
    rw [if_neg huid]
    have hnzne := getPayloadNonce_ne_empty p nz hnz
    have hcons : consumeNonce (getPayloadNonce p) (some e) = ConsumeResult.error e := by
      rw [hnz]
      simp only [consumeNonce]
      rw [if_neg hnzne, if_neg hcode]
    rw [hcons]

/-- C2 witness: a concrete trace (two consumes of the same nonce, then
one with a backend failure) yielding exactly one Fresh, and the
unsubscribe handler aborting on a concrete storage error. -/
theorem nonce_single_use_witness :
    okCountFor "z".data probeEvents (ledgerRun [] probeEvents).1 = 1 ∧
    min 1 (attemptCountFor "z".data probeEvents) = 1 ∧
    unsubscribePage probeParse probeHmac 0 "k".data [] "U".data "K".data
        (some (signPayload probeStringify probeHmac probePayloadFull "k".data)) none
        (some ⟨"PGERR".data, "boom".data⟩) none =
      (UnsubOutcome.message false "Failed to validate link.".data, false) := by
  have h := nonce_single_use "z".data probeEvents [] (by decide) (by decide)
  refine ⟨?_, by decide, ?_⟩
  · rw [h.1]; decide
  · exact h.2.2.2.2 probeParse probeHmac 0 "k".data [] "U".data "K".data
      (signPayload probeStringify probeHmac probePayloadFull "k".data) none
      ⟨"PGERR".data, "boom".data⟩ none probePayloadFull "z".data
      (by decide) (by decide) (by decide) (by decide) (by decide) (by decide)
      (by decide) (by decide)

/-- C6: the scheduler's due filter keeps a subscriber exactly when the
circular minute-of-day distance between the preferred time and the
current wall-clock time is at most the tolerance, `minutesBetween`
computes `min(abs(a-b), 1440-abs(a-b))`, and in particular preferred
00:05 against current 23:58 with tolerance 15 is due (distance 7) while
preferred 12:00 against current 12:20 with tolerance 15 is not
(distance 20). -/
theorem send_window_matcher (localTime : Str → Int × Int) (windowMinutes : Int)
    (prefs : List PrefRow) (p : PrefRow) :
    (∀ th tm ch cm : Int, minutesBetween th tm ch cm =
        min |th * 60 + tm - (ch * 60 + cm)| (1440 - |th * 60 + tm - (ch * 60 + cm)|)) ∧
    (p ∈ duePrefsOf localTime windowMinutes prefs ↔
      p ∈ prefs ∧ prefDue localTime windowMinutes p = true) ∧
    minutesBetween 0 5 23 58 = 7 ∧
    prefDue (fun _ => (23, 58)) 15 ⟨"u".data, none, none, some 0, some 5⟩ = true ∧
    minutesBetween 12 0 12 20 = 20 ∧
    prefDue (fun _ => (12, 20)) 15 ⟨"u".data, none, none, some 12, some 0⟩ = false :=
  ⟨fun th tm ch cm => rfl, List.mem_filter, by decide, by decide, by decide, by decide⟩

/-- C8: a run whose subscriber-list fetch fails is fatal with zero
tokens minted and zero mailer calls; a run whose article-pool fetch
fails likewise mints no token and sends nothing; when both fetches
succeed the run always completes with one classified result per due
subscriber, whatever the email lookup and mailer do — a missing address
yields a skipped record with reason `No email` before any token is
minted for that subscriber, and a mailer rejection yields a skipped
record with the mailer's reason while the loop continues. -/
theorem digest_failure_handling :
    (∀ (e : Str) (ar : Except Str (List ArticleRow)) (lt : Str → Int × Int) (w : Int)
        (dry : Bool) (emailOf : Str → Option Str) (mailOk : Str → Bool)
        (mailErr : Str → Str),
      digestRun (Except.error e) ar lt w dry emailOf mailOk mailErr =
        ⟨DigestResponse.fatal e, 0, 0⟩) ∧
    (∀ (prefs : List PrefRow) (e : Str) (lt : Str → Int × Int) (w : Int) (dry : Bool)
        (emailOf : Str → Option Str) (mailOk : Str → Bool) (mailErr : Str → Str),
      (digestRun (Except.ok prefs) (Except.error e) lt w dry emailOf
          mailOk mailErr).tokensMinted = 0 ∧
      (digestRun (Except.ok prefs) (Except.error e) lt w dry emailOf
          mailOk mailErr).mailerCalls = 0 ∧
      ((digestRun (Except.ok prefs) (Except.error e) lt w dry emailOf
            mailOk mailErr).response = DigestResponse.fatal e ∨
        (digestRun (Except.ok prefs) (Except.error e) lt w dry emailOf
            mailOk mailErr).response = DigestResponse.success 0 [])) ∧
    (∀ (prefs : List PrefRow) (arts : List ArticleRow) (lt : Str → Int × Int) (w : Int)
        (dry : Bool) (emailOf : Str → Option Str) (mailOk : Str → Bool)
        (mailErr : Str → Str),
      ∃ (sent tokens mails : Nat) (results : List SubResult),
        digestRun (Except.ok prefs) (Except.ok arts) lt w dry emailOf mailOk mailErr =
          ⟨DigestResponse.success sent results, tokens, mails⟩ ∧
        results.length = (duePrefsOf lt w (activePrefsOf prefs)).length) ∧
    (∀ (arts : List ArticleRow) (emailOf : Str → Option Str) (dry : Bool)
        (mailOk : Str → Bool) (mailErr : Str → Str) (p : PrefRow),
      emailOf p.user_id = none →
      processPref arts emailOf dry mailOk mailErr p =
        (⟨p.user_id, SendStatus.skipped, some "No email".data⟩, 0, 0)) ∧
    (∀ (arts : List ArticleRow) (emailOf : Str → Option Str) (mailOk : Str → Bool)
        (mailErr : Str → Str) (p : PrefRow) (em : Str),
      emailOf p.user_id = some em → mailOk p.user_id = false →
      processPref arts emailOf false mailOk mailErr p =
        (⟨p.user_id, SendStatus.skipped, some (mailErr p.user_id)⟩,
          3 + 2 * arts.length, 1)) := by
  refine ⟨fun e ar lt w dry emailOf mailOk mailErr => rfl, ?_, ?_, ?_, ?_⟩
  · intro prefs e lt w dry emailOf mailOk mailErr
    simp only [digestRun]
    split_ifs with h1 h2
    · exact ⟨rfl, rfl, Or.inr rfl⟩
    · exact ⟨rfl, rfl, Or.inr rfl⟩
    · exact ⟨rfl, rfl, Or.inl rfl⟩
  · intro prefs arts lt w dry emailOf mailOk mailErr
    simp only [digestRun]
    split_ifs with h1 h2
    · refine ⟨0, 0, 0, [], rfl, ?_⟩
      simp [duePrefsOf, h1]
    · refine ⟨0, 0, 0, [], rfl, ?_⟩
      rw [h2]
      rfl
    · refine ⟨_, _, _, _, rfl, ?_⟩
      simp
  · intro arts emailOf dry mailOk mailErr p h
    simp only [processPref, h]
  · intro arts emailOf mailOk mailErr p em h hm
    simp only [processPref, h, hm]
    simp [hm]

def probePref : PrefRow := ⟨"u".data, none, none, some 0, some 5⟩

/-- C8 witness: a fatal candidate-list fetch at concrete inputs, and a
concrete subscriber without an email address recorded as skipped. -/
theorem digest_failure_handling_witness :
    digestRun (Except.error "down".data) (Except.ok []) (fun _ => (0, 0)) 15 false
        (fun _ => none) (fun _ => true) (fun _ => []) =
      ⟨DigestResponse.fatal "down".data, 0, 0⟩ ∧
    processPref [] (fun _ => none) false (fun _ => true) (fun _ => []) probePref =
      (⟨"u".data, SendStatus.skipped, some "No email".data⟩, 0, 0) :=
  ⟨digest_failure_handling.1 "down".data (Except.ok []) (fun _ => (0, 0)) 15 false
      (fun _ => none) (fun _ => true) (fun _ => []),
    digest_failure_handling.2.2.2.1 [] (fun _ => none) false (fun _ => true)
      (fun _ => []) probePref rfl⟩
